import Mathlib

/-!
Verification of the Google-Drive → local-directory sync engine
(`gdrive-local-sync.py`) against its specification.

The Python source is shallowly embedded:

* `_sanitize_filename`  — a direct translation of the Python function of the
  same name (strip, remove control characters, replace reserved characters,
  fall back to `"unnamed"`).
* `EXPORT_FORMATS` / `exportLookup` — the static export table; a key mapped to
  `none` models the Python `(None, None)` rows.
* `RT` — the remote tree as materialised by `list_folder`: `RT.node item ch`
  is one Drive item together with the (pre-fetched) listing of its children
  when it is a folder; `RT.nil` / `RT.cons` build the per-directory listing.
  Using one inductive for both items and listings keeps the engine's
  recursion structural, so it evaluates by kernel reduction.
* `syncRun` / `sync_folder` — the body of the Python `sync_folder` loop and
  its entry point.  External effects are explicit: the filesystem is an
  association list `FS` keyed by path components, the Drive service is an
  `Env` of fetch functions (`none` models a raised transport error, matching
  `service.files().get_media` / `export_media` + `_download_to_file`), and
  `mkdirFails` / `writeFails` model `Path.mkdir` / `Path.write_bytes` raising
  `OSError`.  A `none` overall result models an exception escaping
  `sync_folder` (the Python code has no handler around `mkdir` or the
  recursive call, so such an exception aborts the whole run).  The returned
  trace (`List Ev`) records every media fetch that was issued, so "performs
  no fetch" / "exactly one fetch" are statements about the trace.
  `_download_to_file` buffers the whole download in memory and writes the
  destination only after the download completed, hence in the embedding a
  failed fetch performs no write at all.
-/

namespace GDriveSync

/-- File contents, as a list of byte values. -/
abbrev Bytes := List Nat

/-- A local filesystem path, as its list of components below the drive root. -/
abbrev FsPath := List String

/-- One entry of a Drive listing: `files(id, name, mimeType, size)`.
`size = none` models the absence of the `size` field (Google-native formats
have no `size`); the engine turns it into `-1` exactly like
`int(item.get("size", -1))`. -/
structure DriveItem where
  name : String
  mimeType : String
  id : String
  size : Option Int
deriving DecidableEq

/-- The local filesystem: an association list from path to file bytes.
Writing pushes in front, reading takes the first hit, so a later write to the
same path shadows an earlier one — the overwrite semantics of
`Path.write_bytes`. -/
abbrev FS := List (FsPath × Bytes)

/-- Read a file (`Path.exists` / `Path.stat().st_size` are derived from it). -/
def fsGet : FS → FsPath → Option Bytes
  | [], _ => none
  | e :: rest, p => if e.1 = p then some e.2 else fsGet rest p

/-- Overwrite a file, as `Path.write_bytes` does. -/
def fsSet (fs : FS) (p : FsPath) (b : Bytes) : FS := (p, b) :: fs

/-- One issued media fetch: `files().get_media` or `files().export_media`. -/
inductive Ev where
  | fetchRaw (fid : String)
  | fetchExport (fid : String) (mime : String)
deriving DecidableEq

/-- The counters of the Python `SyncStats` class, in declaration order. -/
structure SyncStats where
  downloaded : Nat
  skipped : Nat
  exported : Nat
  failed : Nat
  unsupported : Nat
deriving DecidableEq

/-- `SyncStats.__init__`: all counters start at zero. -/
def SyncStats.init : SyncStats := ⟨0, 0, 0, 0, 0⟩

/-- `stats.downloaded += 1` -/
def bumpDownloaded (s : SyncStats) : SyncStats :=
  ⟨s.downloaded + 1, s.skipped, s.exported, s.failed, s.unsupported⟩

/-- `stats.skipped += 1` -/
def bumpSkipped (s : SyncStats) : SyncStats :=
  ⟨s.downloaded, s.skipped + 1, s.exported, s.failed, s.unsupported⟩

/-- `stats.exported += 1` -/
def bumpExported (s : SyncStats) : SyncStats :=
  ⟨s.downloaded, s.skipped, s.exported + 1, s.failed, s.unsupported⟩

/-- `stats.failed += 1` -/
def bumpFailed (s : SyncStats) : SyncStats :=
  ⟨s.downloaded, s.skipped, s.exported, s.failed + 1, s.unsupported⟩

/-- `stats.unsupported += 1` -/
def bumpUnsupported (s : SyncStats) : SyncStats :=
  ⟨s.downloaded, s.skipped, s.exported, s.failed, s.unsupported + 1⟩

/-- Sum of the five counters (downloaded + exported + skipped + unsupported +
failed), the quantity the stats-partition invariant is about. -/
def statSum (s : SyncStats) : Nat :=
  s.downloaded + s.exported + s.skipped + s.unsupported + s.failed

/-- Componentwise `≤` on the five counters ("each counter only ever
increases"). -/
def stLE (a b : SyncStats) : Prop :=
  a.downloaded ≤ b.downloaded ∧ a.skipped ≤ b.skipped ∧
  a.exported ≤ b.exported ∧ a.failed ≤ b.failed ∧
  a.unsupported ≤ b.unsupported

/-- The `EXPORT_FORMATS` table of the source, key → `(export MIME, local
extension)`; the rows whose Python value is `(None, None)` are `none`. -/
def EXPORT_FORMATS : List (String × Option (String × String)) :=
  [("application/vnd.google-apps.document",
      some ("application/vnd.openxmlformats-officedocument.wordprocessingml.document", ".docx")),
   ("application/vnd.google-apps.spreadsheet",
      some ("application/vnd.openxmlformats-officedocument.spreadsheetml.sheet", ".xlsx")),
   ("application/vnd.google-apps.presentation",
      some ("application/vnd.openxmlformats-officedocument.presentationml.presentation", ".pptx")),
   ("application/vnd.google-apps.drawing", some ("image/png", ".png")),
   ("application/vnd.google-apps.script",
      some ("application/vnd.google-apps.script+json", ".json")),
   ("application/vnd.google-apps.form", none),
   ("application/vnd.google-apps.site", none),
   ("application/vnd.google-apps.folder", none)]

/-- `mime in EXPORT_FORMATS` / `EXPORT_FORMATS[mime]`: `none` when the key is
absent, `some v` when present with value `v`. -/
def exportLookup (mime : String) : Option (Option (String × String)) :=
  (EXPORT_FORMATS.find? (fun e => e.1 = mime)).map (fun e => e.2)

/-- The local extensions occurring in the export table. -/
def exportExts : List String := [".docx", ".xlsx", ".pptx", ".png", ".json"]

/-- The folder MIME type. -/
def folderMime : String := "application/vnd.google-apps.folder"

/-- The characters Python's `str.strip()` removes (the `str` whitespace
set; note `'\x00'` is NOT among them). -/
def pySpaceChars : List Char :=
  [' ', '\t', '\n', '\x0b', '\x0c', '\r', '\x1c', '\x1d', '\x1e', '\x1f',
   '\x85', '\xa0', '\u1680', '\u2000', '\u2001', '\u2002', '\u2003',
   '\u2004', '\u2005', '\u2006', '\u2007', '\u2008', '\u2009', '\u200a',
   '\u2028', '\u2029', '\u202f', '\u205f', '\u3000']

/-- Is this character stripped by `str.strip()`? -/
def isPySpace (c : Char) : Bool := pySpaceChars.contains c

/-- `name.strip()`: drop whitespace from both ends. -/
def pyStrip (l : List Char) : List Char :=
  ((l.dropWhile isPySpace).reverse.dropWhile isPySpace).reverse

/-- The control characters removed by the first replace loop
(`'\n\r\t\x00'`). -/
def ctrlChars : List Char := ['\n', '\r', '\t', '\x00']

/-- The reserved characters replaced by `_` by the second replace loop
(`r'\/:*?"<>|'`). -/
def reservedChars : List Char := ['\\', '/', ':', '*', '?', '"', '<', '>', '|']

/-- Translation of `_sanitize_filename`: strip, then remove each control
character (sequential `replace(ch, "")` over distinct characters equals one
filter), then replace each reserved character with `_` (sequential
`replace(ch, "_")` equals one map, since `_` is not itself reserved), then
`name or "unnamed"`. -/
def _sanitize_filename (name : String) : String :=
  let s1 := pyStrip name.data
  let s2 := s1.filter (fun c => !(ctrlChars.contains c))
  let s3 := s2.map (fun c => if reservedChars.contains c then '_' else c)
  if s3.isEmpty then "unnamed" else String.mk s3

/-- The remote tree as `sync_folder` consumes it.  `node item ch` is one
Drive item together with the materialised `list_folder` result of its
children (meaningful only when the item is a folder); `nil`/`cons` build a
directory listing.  One combined inductive keeps the engine structurally
recursive. -/
inductive RT where
  | nil : RT
  | cons (hd : RT) (tl : RT) : RT
  | node (item : DriveItem) (children : RT) : RT
deriving DecidableEq

/-- Append two listings. -/
def RT.app : RT → RT → RT
  | RT.nil, g => g
  | RT.cons h t, g => RT.cons h (t.app g)
  | RT.node i c, g => RT.cons (RT.node i c) g

/-- The external world: Drive media fetches (with `none` a raised transport
error) and the failure behaviour of `Path.mkdir` / `Path.write_bytes`. -/
structure Env where
  fetchRaw : String → Option Bytes
  fetchExport : String → String → Option Bytes
  mkdirFails : FsPath → Bool
  writeFails : FsPath → Bool

/-- The body of `sync_folder` (lines 204–257 of the source).

* `nil` / `cons`: the `for item in items` loop; an exception escaping an
  iteration (`none`) aborts the whole loop, exactly like Python.
* `node`, folder branch: the recursive `sync_folder(service, file_id,
  local_dir / name, stats, depth + 1)` call — whose own first statement is
  the unguarded `local_dir.mkdir(parents=True, exist_ok=True)`, modelled by
  the `mkdirFails` test on the child directory.
* `node`, `mime in EXPORT_FORMATS` branch: unsupported rows bump
  `unsupported`; export rows issue one `export_media` fetch (traced), and
  the `try/except` turns any fetch or write failure into `failed += 1`.
* `node`, plain-file branch: the size comparison
  `local_path.exists() and drive_size >= 0 and local_size == drive_size`
  decides the skip; otherwise one `get_media` fetch (traced) with the same
  `try/except` conversion.  A failed fetch performs no write
  (`_download_to_file` buffers fully before writing). -/
def syncRun (env : Env) : RT → FsPath → FS → SyncStats →
    Option (FS × SyncStats × List Ev)
  | RT.nil, _, fs, st => some (fs, st, [])
  | RT.cons hd tl, dir, fs, st =>
      match syncRun env hd dir fs st with
      | none => none
      | some (fs1, st1, tr1) =>
          match syncRun env tl dir fs1 st1 with
          | none => none
          | some (fs2, st2, tr2) => some (fs2, st2, tr1 ++ tr2)
  | RT.node item ch, dir, fs, st =>
      let name := _sanitize_filename item.name
      let driveSize : Int := (item.size).getD (-1)
      if item.mimeType = folderMime then
        if env.mkdirFails (dir ++ [name]) then none
        else syncRun env ch (dir ++ [name]) fs st
      else
        match exportLookup item.mimeType with
        | some none => some (fs, bumpUnsupported st, [])
        | some (some (exportMime, exportExt)) =>
            let localPath := dir ++ [name ++ exportExt]
            (match env.fetchExport item.id exportMime with
             | some bytes =>
                 if env.writeFails localPath then
                   some (fs, bumpFailed st, [Ev.fetchExport item.id exportMime])
                 else
                   some (fsSet fs localPath bytes, bumpExported st,
                         [Ev.fetchExport item.id exportMime])
             | none => some (fs, bumpFailed st, [Ev.fetchExport item.id exportMime]))
        | none =>
            let localPath := dir ++ [name]
            let fetchGo : Option (FS × SyncStats × List Ev) :=
              match env.fetchRaw item.id with
              | some bytes =>
                  if env.writeFails localPath then
                    some (fs, bumpFailed st, [Ev.fetchRaw item.id])
                  else
                    some (fsSet fs localPath bytes, bumpDownloaded st,
                          [Ev.fetchRaw item.id])
              | none => some (fs, bumpFailed st, [Ev.fetchRaw item.id])
            match fsGet fs localPath with
            | some b =>
                if 0 ≤ driveSize ∧ (b.length : Int) = driveSize then
                  some (fs, bumpSkipped st, [])
                else fetchGo
            | none => fetchGo

/-- `sync_folder(service, folder_id, local_dir, stats)`: the unguarded
`local_dir.mkdir(parents=True, exist_ok=True)` first (an `OSError` there
escapes, `none`), then the per-item loop over the listing. -/
def sync_folder (env : Env) (localDir : FsPath) (items : RT) (fs : FS)
    (st : SyncStats) : Option (FS × SyncStats × List Ev) :=
  if env.mkdirFails localDir then none
  else syncRun env items localDir fs st

/-- Number of non-folder entries encountered by the traversal: a folder
counts its subtree's leaves, every other item counts 1 (its `children`
field is never visited, matching the engine). -/
def leafCount : RT → Nat
  | RT.nil => 0
  | RT.cons hd tl => leafCount hd + leafCount tl
  | RT.node item ch => if item.mimeType = folderMime then leafCount ch else 1

/-- One step of filesystem path resolution: `"."` stays, `".."` pops. -/
def normStep (acc : List String) (c : String) : List String :=
  if c = "." then acc
  else if c = ".." then acc.dropLast
  else acc ++ [c]

/-- Resolve `"."` and `".."` components of an absolute path, as the
filesystem does when the engine's paths are actually opened. -/
def normalize (p : List String) : List String := p.foldl normStep []

/-- Does processing this (non-folder) item from filesystem state `fs` hit
the `except` branch, i.e. does its fetch or its local write fail?
This mirrors the two `try` bodies of `sync_folder`. -/
def leafFails (env : Env) (dir : FsPath) (fs : FS) (item : DriveItem) : Bool :=
  match exportLookup item.mimeType with
  | some none => false
  | some (some (exportMime, exportExt)) =>
      let p := dir ++ [_sanitize_filename item.name ++ exportExt]
      match env.fetchExport item.id exportMime with
      | none => true
      | some _ => env.writeFails p
  | none =>
      let p := dir ++ [_sanitize_filename item.name]
      let driveSize : Int := (item.size).getD (-1)
      let skip := match fsGet fs p with
        | some b => decide (0 ≤ driveSize ∧ (b.length : Int) = driveSize)
        | none => false
      if skip then false
      else
        match env.fetchRaw item.id with
        | none => true
        | some _ => env.writeFails p

/-! ### Concrete instances used by counterexamples and witnesses -/

/-- A benign environment: every fetch succeeds, no mkdir/write failures. -/
def envOk : Env :=
  ⟨fun _ => some [0], fun _ _ => some [0], fun _ => false, fun _ => false⟩

/-- An environment where every media fetch raises a transport error. -/
def envNoNet : Env :=
  ⟨fun _ => none, fun _ _ => none, fun _ => false, fun _ => false⟩

/-- Environment for the C1 counterexample: the one raw fetch succeeds. -/
def c1Env : Env :=
  ⟨fun _ => some [1], fun _ _ => none, fun _ => false, fun _ => false⟩

/-- C1 counterexample listing: the remote root contains a folder named
`".."` holding one regular file `evil.txt`. -/
def c1Tree : RT :=
  RT.cons
    (RT.node ⟨"..", "application/vnd.google-apps.folder", "d1", none⟩
      (RT.cons (RT.node ⟨"evil.txt", "application/octet-stream", "fid", some 1⟩
        RT.nil) RT.nil))
    RT.nil

/-- Environment for the C3 counterexample: creating the local directory
`root/sub` fails (`Path.mkdir` raises), everything else succeeds. -/
def c3Env : Env :=
  ⟨fun _ => some [5], fun _ _ => none,
   fun p => decide (p = ["root", "sub"]), fun _ => false⟩

/-- C3 counterexample listing: a subfolder `sub` followed by a sibling
regular file `g.txt`. -/
def c3Tree : RT :=
  RT.cons (RT.node ⟨"sub", "application/vnd.google-apps.folder", "d1", none⟩ RT.nil)
    (RT.cons (RT.node ⟨"g.txt", "application/octet-stream", "g1", some 1⟩ RT.nil)
      RT.nil)

/-- Environment for the C9 counterexample: the first duplicate-named sibling
fetches bytes `[65]`, the second `[66]`. -/
def c9Env : Env :=
  ⟨fun fid => if fid = "i1" then some [65] else if fid = "i2" then some [66] else none,
   fun _ _ => none, fun _ => false, fun _ => false⟩

/-- C9 counterexample listing: two sibling regular files both named `a`,
both reporting size 1. -/
def c9Tree : RT :=
  RT.cons (RT.node ⟨"a", "application/octet-stream", "i1", some 1⟩ RT.nil)
    (RT.cons (RT.node ⟨"a", "application/octet-stream", "i2", some 1⟩ RT.nil)
      RT.nil)

/-- Listing for the C6 witness: a folder holding one regular file, plus an
unsupported form sibling. -/
def c6Tree : RT :=
  RT.cons (RT.node ⟨"Reports", "application/vnd.google-apps.folder", "d", none⟩
    (RT.cons (RT.node ⟨"a.txt", "text/plain", "f", some 3⟩ RT.nil) RT.nil))
    (RT.cons (RT.node ⟨"Signup", "application/vnd.google-apps.form", "q", none⟩ RT.nil)
      RT.nil)

/-! ### Helper lemmas -/

/-- Reading back a freshly written file. -/
theorem fsGet_fsSet (fs : FS) (p : FsPath) (b : Bytes) :
    fsGet (fsSet fs p b) p = some b := by
  simp [fsGet, fsSet]

/-- Path resolution of one appended component. -/
theorem normalize_append_one (p : List String) (c : String) :
    normalize (p ++ [c]) = normStep (normalize p) c := by
  simp [normalize, List.foldl_append]

/-- A component other than `".."` keeps the resolved path below `root`. -/
theorem prefix_normStep (root : List String) (c : String) (h : c ≠ "..") :
    root <+: normStep root c := by
  unfold normStep
  by_cases h1 : c = "."
  · rw [if_pos h1]
  · rw [if_neg h1, if_neg h]
    exact List.prefix_append root [c]

/-- Every extension in the export table is at least 4 characters long. -/
theorem exportExt_len : ∀ e ∈ exportExts, 4 ≤ e.data.length := by decide

/-- Appending a table extension can produce neither `"."` nor `".."`. -/
theorem extComponent_ne_dots (s ext : String) (h : ext ∈ exportExts) :
    s ++ ext ≠ "." ∧ s ++ ext ≠ ".." := by
  have h4 : 4 ≤ ext.data.length := exportExt_len ext h
  have hlen : (s ++ ext).data.length = s.data.length + ext.data.length := by
    rw [String.data_append]
    exact List.length_append _ _
  constructor <;> intro hc
  · have h1 : (s ++ ext).data.length = (".").data.length := by rw [hc]
    rw [hlen] at h1
    simp only [show (".").data.length = 1 from rfl] at h1
    omega
  · have h1 : (s ++ ext).data.length = ("..").data.length := by rw [hc]
    rw [hlen] at h1
    simp only [show ("..").data.length = 2 from rfl] at h1
    omega

/-- No character of a sanitized name is reserved or control. -/
theorem sanitize_mem (name : String) (c : Char)
    (hc : c ∈ (_sanitize_filename name).data) :
    ¬(c ∈ reservedChars ∨ c ∈ ctrlChars) := by
  simp only [_sanitize_filename] at hc
  split at hc
  · revert hc
    rw [show ("unnamed").data = ['u', 'n', 'n', 'a', 'm', 'e', 'd'] from rfl]
    intro hc
    fin_cases hc <;> decide
  · rw [show ∀ l, (String.mk l).data = l from fun _ => rfl] at hc
    obtain ⟨a, ha, rfl⟩ := List.mem_map.mp hc
    by_cases hr : reservedChars.contains a
    · rw [if_pos hr]
      decide
    · rw [if_neg hr]
      have h2 := List.mem_filter.mp ha
      intro hbad
      rcases hbad with hb | hb
      · exact hr ((List.elem_iff).mpr hb)
      · have h3 := h2.2
        simp only [Bool.not_eq_true'] at h3
        exact absurd hb (by simpa using h3)

/-- A sanitized name is never empty. -/
theorem sanitize_ne_nil (name : String) : (_sanitize_filename name).data ≠ [] := by
  simp only [_sanitize_filename]
  split
  · decide
  · rename_i h
    rw [show ∀ l, (String.mk l).data = l from fun _ => rfl]
    simpa [List.isEmpty_iff] using h

/-- Processing a concatenated listing is processing the first part, then —
when no exception escaped — the second part from the reached state. -/
theorem syncRun_app (env : Env) (g : RT) :
    ∀ (f : RT) (dir : FsPath) (fs : FS) (st : SyncStats),
      syncRun env (f.app g) dir fs st =
        match syncRun env f dir fs st with
        | none => none
        | some r =>
            (syncRun env g dir r.1 r.2.1).map
              (fun q => (q.1, q.2.1, r.2.2 ++ q.2.2)) := by
  intro f
  induction f with
  | nil =>
      intro dir fs st
      simp only [RT.app, syncRun]
      cases h1 : syncRun env g dir fs st with
      | none => rfl
      | some q =>
          rcases q with ⟨q1, q2, q3⟩
          simp
  | cons hd tl ihhd ihtl =>
      intro dir fs st
      cases h1 : syncRun env hd dir fs st with
      | none => simp [RT.app, syncRun, h1]
      | some r =>
          rcases r with ⟨fs1, st1, tr1⟩
          simp only [RT.app, syncRun, h1]
          rw [ihtl]
          cases h2 : syncRun env tl dir fs1 st1 with
          | none => simp
          | some r2 =>
              rcases r2 with ⟨fs2, st2, tr2⟩
              cases h3 : syncRun env g dir fs2 st2 with
              | none => simp [h3]
              | some q =>
                  rcases q with ⟨q1, q2, q3⟩
                  simp [h3, List.append_assoc]
  | node item ch ih =>
      intro dir fs st
      simp only [RT.app]
      generalize RT.node item ch = n
      cases h1 : syncRun env n dir fs st with
      | none => simp [syncRun, h1]
      | some r =>
          rcases r with ⟨fs1, st1, tr1⟩
          simp only [syncRun, h1]
          cases h2 : syncRun env g dir fs1 st1 with
          | none => simp [h2]
          | some q =>
              rcases q with ⟨q1, q2, q3⟩
              simp [h2]

/-- When the fetch or local write of a non-folder entry fails, the entry's
processing returns normally with exactly `failed` incremented and the
filesystem untouched (the `except` branches of the source). -/
theorem leafFails_spec (env : Env) (dir : FsPath) (fs : FS) (st : SyncStats)
    (item : DriveItem) (ch : RT) (hm : item.mimeType ≠ folderMime)
    (hf : leafFails env dir fs item = true) :
    ∃ tr, syncRun env (RT.node item ch) dir fs st = some (fs, bumpFailed st, tr) := by
  simp only [leafFails] at hf
  simp only [syncRun, if_neg hm]
  cases hel : exportLookup item.mimeType with
  | none =>
      simp only [hel] at hf ⊢
      cases hg : fsGet fs (dir ++ [_sanitize_filename item.name]) with
      | none =>
          simp only [hg, Bool.false_eq_true, if_false] at hf ⊢
          cases hr : env.fetchRaw item.id with
          | none => exact ⟨_, rfl⟩
          | some bytes =>
              simp only [hr] at hf ⊢
              exact ⟨_, by rw [if_pos hf]⟩
      | some b =>
          by_cases hcond : 0 ≤ ((item.size).getD (-1) : Int) ∧
              (b.length : Int) = (item.size).getD (-1)
          · simp only [hg, decide_eq_true hcond, if_true] at hf
            cases hf
          · simp only [hg, decide_eq_false hcond, Bool.false_eq_true, if_false,
              if_neg hcond] at hf ⊢
            cases hr : env.fetchRaw item.id with
            | none => exact ⟨_, rfl⟩
            | some bytes =>
                simp only [hr] at hf ⊢
                exact ⟨_, by rw [if_pos hf]⟩
  | some o =>
      cases o with
      | none =>
          simp only [hel] at hf
          cases hf
      | some pr =>
          rcases pr with ⟨em, ext⟩
          simp only [hel] at hf ⊢
          cases hfe : env.fetchExport item.id em with
          | none => exact ⟨_, rfl⟩
          | some bytes =>
              simp only [hfe] at hf ⊢
              exact ⟨_, by rw [if_pos hf]⟩

/-! ### Claim theorems -/

/-- C7: for every input string containing a reserved character
(`\ / : * ? " < > |`) or a control character (newline, carriage return,
horizontal tab, NUL), the output of `_sanitize_filename` contains none of
those characters and is non-empty.  (`_sanitize_filename` is a Lean `def`,
hence total and side-effect-free by construction.) -/
theorem c7_sanitize_safe (name : String)
    (_h : ∃ c ∈ name.data, c ∈ reservedChars ∨ c ∈ ctrlChars) :
    (∀ c ∈ (_sanitize_filename name).data, ¬(c ∈ reservedChars ∨ c ∈ ctrlChars)) ∧
    (_sanitize_filename name).data ≠ [] :=
  ⟨fun c hc => sanitize_mem name c hc, sanitize_ne_nil name⟩

/-- C7 witness: the input `"a:b\n"` contains a reserved and a control
character; its sanitized form is clean and non-empty. -/
theorem c7_witness :
    (∃ c ∈ ("a:b\n").data, c ∈ reservedChars ∨ c ∈ ctrlChars) ∧
    ((∀ c ∈ (_sanitize_filename "a:b\n").data,
        ¬(c ∈ reservedChars ∨ c ∈ ctrlChars)) ∧
     (_sanitize_filename "a:b\n").data ≠ []) :=
  ⟨by decide, c7_sanitize_safe "a:b\n" (by decide)⟩

/-- C10: `_sanitize_filename` strips whitespace before removing control
characters, so the input `"\x00 a"` (NUL, space, `a`) keeps its leading
space (Python `str.strip` does not strip NUL), and sanitization is not
idempotent: applying it twice to this input differs from applying it
once. -/
theorem c10_sanitize_not_idempotent :
    _sanitize_filename "\x00 a" = " a" ∧
    _sanitize_filename (_sanitize_filename "\x00 a") ≠ _sanitize_filename "\x00 a" := by
  decide

/-- C1 (counterexample): the entry name `".."` survives sanitization
unchanged, the computed target `root/..` resolves outside the subtree
rooted at `root`, and the engine, run on a remote folder named `".."`
containing `evil.txt`, actually writes a file whose resolved path
(`normalize ["root", "..", "evil.txt"] = ["evil.txt"]`) is not below the
local root — refuting the claim that no entry name can make the engine
touch paths outside the root. -/
theorem c1_counterexample :
    _sanitize_filename ".." = ".." ∧
    ¬(["root"] <+: normalize (["root"] ++ [_sanitize_filename ".."])) ∧
    sync_folder c1Env ["root"] c1Tree [] SyncStats.init =
      some ([(["root", "..", "evil.txt"], [1])], ⟨1, 0, 0, 0, 0⟩,
            [Ev.fetchRaw "fid"]) ∧
    ¬(["root"] <+: normalize ["root", "..", "evil.txt"]) := by
  decide

/-- C1 (amended): for every entry whose sanitized name is not `".."`, the
local target path (`root / sanitize(name)`, plus any export extension from
the table when exporting) resolves to a path below the top-level local
root; the exception for the name `".."` is forced by `c1_counterexample`.
The third conjunct checks that `exportExts` covers every extension of the
export table. -/
theorem c1_amended (root : FsPath) (name : String)
    (hroot : normalize root = root)
    (hname : _sanitize_filename name ≠ "..") :
    (root <+: normalize (root ++ [_sanitize_filename name])) ∧
    (∀ ext ∈ exportExts,
        root <+: normalize (root ++ [_sanitize_filename name ++ ext])) ∧
    (∀ e ∈ EXPORT_FORMATS, ∀ em ext, e.2 = some (em, ext) → ext ∈ exportExts) := by
  refine ⟨?_, ?_, ?_⟩
  · rw [normalize_append_one, hroot]
    exact prefix_normStep root _ hname
  · intro ext hext
    rw [normalize_append_one, hroot]
    exact prefix_normStep root _ (extComponent_ne_dots _ ext hext).2
  · intro e he em ext h2
    fin_cases he <;> simp_all <;> rw [← h2.2] <;> decide

/-- C1 witness: instantiation of `c1_amended` at root `["root"]` and entry
name `"a.txt"`. -/
theorem c1_witness :
    normalize ["root"] = ["root"] ∧ _sanitize_filename "a.txt" ≠ ".." ∧
    (["root"] <+: normalize (["root"] ++ [_sanitize_filename "a.txt"])) :=
  ⟨by decide, by decide, (c1_amended ["root"] "a.txt" (by decide) (by decide)).1⟩

/-- C2: a failure of the fetch or of the local write for a non-folder child
entry is caught at that entry's scope: the entry contributes exactly one
`failed` increment (and leaves the filesystem untouched), and the
per-directory loop goes on to process all remaining sibling entries and
subtrees from that very state — the whole run's result equals the
continuation over the suffix. -/
theorem c2_leaf_failure_isolated (env : Env) (dir : FsPath) (pre suf : RT)
    (item : DriveItem) (ch : RT) (fs : FS) (st : SyncStats)
    (fs1 : FS) (st1 : SyncStats) (tr1 : List Ev)
    (hm : item.mimeType ≠ folderMime)
    (hpre : syncRun env pre dir fs st = some (fs1, st1, tr1))
    (hf : leafFails env dir fs1 item = true) :
    ∃ tr, syncRun env (RT.node item ch) dir fs1 st1 = some (fs1, bumpFailed st1, tr) ∧
      syncRun env (pre.app (RT.cons (RT.node item ch) suf)) dir fs st =
        (syncRun env suf dir fs1 (bumpFailed st1)).map
          (fun q => (q.1, q.2.1, tr1 ++ tr ++ q.2.2)) := by
  obtain ⟨tr, htr⟩ := leafFails_spec env dir fs1 st1 item ch hm hf
  refine ⟨tr, htr, ?_⟩
  rw [syncRun_app env (RT.cons (RT.node item ch) suf) pre dir fs st, hpre]
  generalize hn : RT.node item ch = n at htr
  simp only [syncRun, htr]
  cases h2 : syncRun env suf dir fs1 (bumpFailed st1) with
  | none => simp
  | some q =>
      rcases q with ⟨q1, q2, q3⟩
      simp [List.append_assoc]

/-- C2 witness: with no network, the single file entry `y.bin` fails
(exactly one `failed` bump) and the engine continues with the (empty)
suffix. -/
theorem c2_witness :
    (DriveItem.mimeType ⟨"y.bin", "application/octet-stream", "y", some 2⟩ ≠ folderMime) ∧
    syncRun envNoNet RT.nil ["r"] [] SyncStats.init = some ([], SyncStats.init, []) ∧
    leafFails envNoNet ["r"] [] ⟨"y.bin", "application/octet-stream", "y", some 2⟩ = true ∧
    ∃ tr,
      syncRun envNoNet
        (RT.node ⟨"y.bin", "application/octet-stream", "y", some 2⟩ RT.nil) ["r"]
        [] SyncStats.init = some ([], bumpFailed SyncStats.init, tr) ∧
      syncRun envNoNet
        (RT.nil.app (RT.cons
          (RT.node ⟨"y.bin", "application/octet-stream", "y", some 2⟩ RT.nil) RT.nil))
        ["r"] [] SyncStats.init =
        (syncRun envNoNet RT.nil ["r"] [] (bumpFailed SyncStats.init)).map
          (fun q => (q.1, q.2.1, [] ++ tr ++ q.2.2)) :=
  ⟨by decide, by decide, by decide,
   c2_leaf_failure_isolated envNoNet ["r"] RT.nil RT.nil
     ⟨"y.bin", "application/octet-stream", "y", some 2⟩ RT.nil [] SyncStats.init
     [] SyncStats.init [] (by decide) (by decide) (by decide)⟩

/-- C3 (counterexample): with a listing containing the subfolder `sub`
(whose local directory creation fails) followed by a sibling file `g.txt`,
the whole run aborts (`none`): no result is produced at all, so in
particular the failure is **not** converted into a `failed` increment and
the sibling is **not** processed — refuting the claim that a non-root
mkdir failure is fatal for that subtree only. -/
theorem c3_counterexample :
    sync_folder c3Env ["root"] c3Tree [] SyncStats.init = none ∧
    ¬∃ fs' st' tr, sync_folder c3Env ["root"] c3Tree [] SyncStats.init =
        some (fs', st', tr) ∧ st'.failed = SyncStats.init.failed + 1 := by
  have h0 : sync_folder c3Env ["root"] c3Tree [] SyncStats.init = none := by decide
  refine ⟨h0, ?_⟩
  rintro ⟨fs', st', tr, hcontra, -⟩
  rw [h0] at hcontra
  cases hcontra

/-- C3 (amended): failure to create **any** local directory — the top-level
root or any subfolder's — aborts the whole run: the root case returns no
result immediately, and a failing subfolder child turns the entire
enclosing run into `none`, with no `failed` increment and no processing of
the remaining siblings. -/
theorem c3_mkdir_failure_aborts (env : Env) (dir : FsPath) :
    (∀ t fs st, env.mkdirFails dir = true → sync_folder env dir t fs st = none) ∧
    (∀ (pre suf ch : RT) (item : DriveItem) (fs : FS) (st : SyncStats)
        (fs1 : FS) (st1 : SyncStats) (tr1 : List Ev),
        item.mimeType = folderMime →
        env.mkdirFails (dir ++ [_sanitize_filename item.name]) = true →
        syncRun env pre dir fs st = some (fs1, st1, tr1) →
        syncRun env (pre.app (RT.cons (RT.node item ch) suf)) dir fs st = none) := by
  constructor
  · intro t fs st h
    simp [sync_folder, h]
  · intro pre suf ch item fs st fs1 st1 tr1 hmime hmk hpre
    rw [syncRun_app env (RT.cons (RT.node item ch) suf) pre dir fs st, hpre]
    have hnode : syncRun env (RT.node item ch) dir fs1 st1 = none := by
      simp only [syncRun, if_pos hmime, hmk, if_true]
    generalize hn : RT.node item ch = n at hnode
    simp only [syncRun, hnode]
    rfl

/-- C3 witness: instantiation of `c3_mkdir_failure_aborts` on the concrete
environment/listing of the counterexample. -/
theorem c3_witness :
    DriveItem.mimeType ⟨"sub", "application/vnd.google-apps.folder", "d1", none⟩ =
      folderMime ∧
    c3Env.mkdirFails (["root"] ++
      [_sanitize_filename
        (DriveItem.name ⟨"sub", "application/vnd.google-apps.folder", "d1", none⟩)]) = true ∧
    syncRun c3Env RT.nil ["root"] [] SyncStats.init = some ([], SyncStats.init, []) ∧
    syncRun c3Env
      (RT.nil.app (RT.cons
        (RT.node ⟨"sub", "application/vnd.google-apps.folder", "d1", none⟩ RT.nil)
        (RT.cons (RT.node ⟨"g.txt", "application/octet-stream", "g1", some 1⟩ RT.nil)
          RT.nil)))
      ["root"] [] SyncStats.init = none :=
  ⟨by decide, by decide, by decide,
   (c3_mkdir_failure_aborts c3Env ["root"]).2 RT.nil
     (RT.cons (RT.node ⟨"g.txt", "application/octet-stream", "g1", some 1⟩ RT.nil)
       RT.nil)
     RT.nil ⟨"sub", "application/vnd.google-apps.folder", "d1", none⟩
     [] SyncStats.init [] SyncStats.init [] (by decide) (by decide) (by decide)⟩

/-- A mime type with an actual export target in the table is not the folder
mime type (the folder row maps to `none`). -/
theorem exportLookup_ne_folder (m em ext : String)
    (he : exportLookup m = some (some (em, ext))) : m ≠ folderMime := by
  intro hfold
  rw [hfold, show exportLookup folderMime = some none from by decide] at he
  simp at he

/-- The skip test of the plain-file branch, stated with the raw `size`
attribute: `drive_size >= 0 and local_size == drive_size` holds exactly
when the entry has a `size` field equal to the local byte count. -/
theorem skip_test_iff (sz : Option Int) (b : Bytes) :
    (0 ≤ (sz.getD (-1) : Int) ∧ (b.length : Int) = sz.getD (-1)) ↔
      sz = some (b.length : Int) := by
  cases sz with
  | none => simp
  | some n =>
      simp only [Option.getD, Option.some.injEq]
      constructor
      · rintro ⟨h1, h2⟩
        omega
      · intro h
        constructor
        · omega
        · omega

/-- C4: a `RegularFile` entry is skipped (exactly one `skipped` bump, no
fetch event, filesystem untouched) **iff** the local target exists and the
entry reports a size equal to the local byte length; otherwise the engine
issues exactly one raw fetch and overwrites the target, bumping
`downloaded` on success and `failed` on fetch or write error.  An entry
without a `size` attribute never satisfies the skip test, hence is always
re-fetched. -/
theorem c4_regular_file_policy (env : Env) (dir : FsPath) (fs : FS)
    (st : SyncStats) (item : DriveItem) (ch : RT)
    (hm : item.mimeType ≠ folderMime)
    (he : exportLookup item.mimeType = none) :
    ((syncRun env (RT.node item ch) dir fs st = some (fs, bumpSkipped st, [])) ↔
      (∃ b, fsGet fs (dir ++ [_sanitize_filename item.name]) = some b ∧
        item.size = some (b.length : Int))) ∧
    ((¬∃ b, fsGet fs (dir ++ [_sanitize_filename item.name]) = some b ∧
        item.size = some (b.length : Int)) →
      syncRun env (RT.node item ch) dir fs st =
        some (match env.fetchRaw item.id with
              | none => (fs, bumpFailed st, [Ev.fetchRaw item.id])
              | some bytes =>
                  if env.writeFails (dir ++ [_sanitize_filename item.name]) then
                    (fs, bumpFailed st, [Ev.fetchRaw item.id])
                  else
                    (fsSet fs (dir ++ [_sanitize_filename item.name]) bytes,
                     bumpDownloaded st, [Ev.fetchRaw item.id]))) := by
  simp only [syncRun, if_neg hm, he]
  cases hg : fsGet fs (dir ++ [_sanitize_filename item.name]) with
  | none =>
      dsimp only
      constructor
      · constructor
        · intro heq
          exfalso
          cases hr : env.fetchRaw item.id with
          | none => simp [hr] at heq
          | some bytes =>
              by_cases hw : env.writeFails (dir ++ [_sanitize_filename item.name]) = true <;>
                simp [hr, hw] at heq
        · rintro ⟨b, hb, -⟩
          exact Option.noConfusion hb
      · intro hns
        cases hr : env.fetchRaw item.id with
        | none => simp [hr]
        | some bytes =>
            by_cases hw : env.writeFails (dir ++ [_sanitize_filename item.name]) = true <;>
              simp [hr, hw]
  | some b =>
      dsimp only
      by_cases hcond : 0 ≤ (((item.size).getD (-1)) : Int) ∧
          (b.length : Int) = (item.size).getD (-1)
      · rw [if_pos hcond]
        constructor
        · constructor
          · intro _
            exact ⟨b, rfl, (skip_test_iff item.size b).mp hcond⟩
          · intro _
            rfl
        · intro hns
          exact absurd ⟨b, rfl, (skip_test_iff item.size b).mp hcond⟩ hns
      · rw [if_neg hcond]
        constructor
        · constructor
          · intro heq
            exfalso
            cases hr : env.fetchRaw item.id with
            | none => simp [hr] at heq
            | some bytes =>
                by_cases hw : env.writeFails (dir ++ [_sanitize_filename item.name]) = true <;>
                  simp [hr, hw] at heq
          · rintro ⟨b2, hb2, hsz⟩
            exfalso
            injection hb2 with hb3
            subst hb3
            exact hcond ((skip_test_iff item.size b).mpr hsz)
        · intro hns
          cases hr : env.fetchRaw item.id with
          | none => simp [hr]
          | some bytes =>
              by_cases hw : env.writeFails (dir ++ [_sanitize_filename item.name]) = true <;>
                simp [hr, hw]

/-- C4 witness: absent local file (`fs = []`), size 3 entry: the skip test
fails and exactly one raw fetch happens (here a transport error, `failed`).
Both hypotheses and the non-skip premise are discharged concretely. -/
theorem c4_witness :
    (DriveItem.mimeType ⟨"a.txt", "text/plain", "f1", some 3⟩ ≠ folderMime) ∧
    exportLookup (DriveItem.mimeType ⟨"a.txt", "text/plain", "f1", some 3⟩) = none ∧
    ((syncRun envNoNet (RT.node ⟨"a.txt", "text/plain", "f1", some 3⟩ RT.nil)
        ["r"] [] SyncStats.init = some ([], bumpSkipped SyncStats.init, [])) ↔
      (∃ b, fsGet [] (["r"] ++ [_sanitize_filename "a.txt"]) = some b ∧
        (some 3 : Option Int) = some (b.length : Int))) := by
  refine ⟨by decide, by decide, ?_⟩
  exact (c4_regular_file_policy envNoNet ["r"] [] SyncStats.init
    ⟨"a.txt", "text/plain", "f1", some 3⟩ RT.nil (by decide) (by decide)).1

/-- C5: a `NativeDocument` entry with an export mapping always issues
exactly one export fetch (never `skipped`, whatever the local state), with
target `localDir / sanitizedName + ext`: `exported` is bumped by exactly 1
on success, `failed` by exactly 1 on a fetch or write error. -/
theorem c5_export_policy (env : Env) (dir : FsPath) (fs : FS) (st : SyncStats)
    (item : DriveItem) (ch : RT) (em ext : String)
    (he : exportLookup item.mimeType = some (some (em, ext))) :
    syncRun env (RT.node item ch) dir fs st =
      some (match env.fetchExport item.id em with
            | none => (fs, bumpFailed st, [Ev.fetchExport item.id em])
            | some bytes =>
                if env.writeFails (dir ++ [_sanitize_filename item.name ++ ext]) then
                  (fs, bumpFailed st, [Ev.fetchExport item.id em])
                else
                  (fsSet fs (dir ++ [_sanitize_filename item.name ++ ext]) bytes,
                   bumpExported st, [Ev.fetchExport item.id em])) ∧
    (∀ fs2 st2 tr, syncRun env (RT.node item ch) dir fs st = some (fs2, st2, tr) →
      st2.skipped = st.skipped ∧ tr = [Ev.fetchExport item.id em] ∧
      st2.exported + st2.failed = st.exported + st.failed + 1) := by
  have hm : item.mimeType ≠ folderMime := exportLookup_ne_folder _ em ext he
  have hmain : syncRun env (RT.node item ch) dir fs st =
      some (match env.fetchExport item.id em with
            | none => (fs, bumpFailed st, [Ev.fetchExport item.id em])
            | some bytes =>
                if env.writeFails (dir ++ [_sanitize_filename item.name ++ ext]) then
                  (fs, bumpFailed st, [Ev.fetchExport item.id em])
                else
                  (fsSet fs (dir ++ [_sanitize_filename item.name ++ ext]) bytes,
                   bumpExported st, [Ev.fetchExport item.id em])) := by
    simp only [syncRun, if_neg hm, he]
    cases hfe : env.fetchExport item.id em with
    | none => rfl
    | some bytes =>
        dsimp only
        by_cases hw : env.writeFails (dir ++ [_sanitize_filename item.name ++ ext]) = true <;>
          simp [hw]
  refine ⟨hmain, ?_⟩
  intro fs2 st2 tr heq
  rw [hmain] at heq
  cases hfe : env.fetchExport item.id em with
  | none =>
      rw [hfe] at heq
      dsimp only at heq
      simp only [Option.some.injEq, Prod.mk.injEq] at heq
      obtain ⟨-, h2, h3⟩ := heq
      subst h2
      subst h3
      refine ⟨rfl, rfl, ?_⟩
      simp only [bumpFailed]
      omega
  | some bytes =>
      rw [hfe] at heq
      dsimp only at heq
      by_cases hw : env.writeFails (dir ++ [_sanitize_filename item.name ++ ext]) = true
      · rw [if_pos hw] at heq
        simp only [Option.some.injEq, Prod.mk.injEq] at heq
        obtain ⟨-, h2, h3⟩ := heq
        subst h2
        subst h3
        refine ⟨rfl, rfl, ?_⟩
        simp only [bumpFailed]
        omega
      · rw [if_neg hw] at heq
        simp only [Option.some.injEq, Prod.mk.injEq] at heq
        obtain ⟨-, h2, h3⟩ := heq
        subst h2
        subst h3
        refine ⟨rfl, rfl, ?_⟩
        simp only [bumpExported]
        omega

/-- C5 witness: the spreadsheet row of the table, benign environment — the
export succeeds and the equation instantiates concretely. -/
theorem c5_witness :
    exportLookup
      (DriveItem.mimeType ⟨"Budget", "application/vnd.google-apps.spreadsheet", "s1", none⟩) =
      some (some ("application/vnd.openxmlformats-officedocument.spreadsheetml.sheet", ".xlsx")) ∧
    syncRun envOk
      (RT.node ⟨"Budget", "application/vnd.google-apps.spreadsheet", "s1", none⟩ RT.nil)
      ["r"] [] SyncStats.init =
      some (match envOk.fetchExport "s1"
              "application/vnd.openxmlformats-officedocument.spreadsheetml.sheet" with
            | none => ([], bumpFailed SyncStats.init,
                [Ev.fetchExport "s1"
                  "application/vnd.openxmlformats-officedocument.spreadsheetml.sheet"])
            | some bytes =>
                if envOk.writeFails (["r"] ++ [_sanitize_filename "Budget" ++ ".xlsx"]) then
                  ([], bumpFailed SyncStats.init,
                   [Ev.fetchExport "s1"
                     "application/vnd.openxmlformats-officedocument.spreadsheetml.sheet"])
                else
                  (fsSet [] (["r"] ++ [_sanitize_filename "Budget" ++ ".xlsx"]) bytes,
                   bumpExported SyncStats.init,
                   [Ev.fetchExport "s1"
                     "application/vnd.openxmlformats-officedocument.spreadsheetml.sheet"])) :=
  ⟨by decide,
   (c5_export_policy envOk ["r"] [] SyncStats.init
     ⟨"Budget", "application/vnd.google-apps.spreadsheet", "s1", none⟩ RT.nil
     "application/vnd.openxmlformats-officedocument.spreadsheetml.sheet" ".xlsx"
     (by decide)).1⟩

/-- C8: a fetch that fails with a transport error leaves the filesystem —
in particular the local target's bytes — completely unchanged, for both the
raw-download path and the export path: the destination is written only
after a fully successful download. -/
theorem c8_failed_fetch_preserves_fs (env : Env) (dir : FsPath) (fs : FS)
    (st : SyncStats) (item : DriveItem) (ch : RT) :
    ((item.mimeType ≠ folderMime → exportLookup item.mimeType = none →
        env.fetchRaw item.id = none →
        ∃ st2 tr, syncRun env (RT.node item ch) dir fs st = some (fs, st2, tr)) ∧
     (∀ em ext, exportLookup item.mimeType = some (some (em, ext)) →
        env.fetchExport item.id em = none →
        syncRun env (RT.node item ch) dir fs st =
          some (fs, bumpFailed st, [Ev.fetchExport item.id em]))) := by
  constructor
  · intro hm he hr
    simp only [syncRun, if_neg hm, he]
    cases hg : fsGet fs (dir ++ [_sanitize_filename item.name]) with
    | none =>
        refine ⟨bumpFailed st, [Ev.fetchRaw item.id], ?_⟩
        dsimp only
        simp [hr]
    | some b =>
        by_cases hcond : 0 ≤ (((item.size).getD (-1)) : Int) ∧
            (b.length : Int) = (item.size).getD (-1)
        · refine ⟨bumpSkipped st, [], ?_⟩
          dsimp only
          rw [if_pos hcond]
        · refine ⟨bumpFailed st, [Ev.fetchRaw item.id], ?_⟩
          dsimp only
          rw [if_neg hcond]
          simp [hr]
  · intro em ext he hfe
    have hm : item.mimeType ≠ folderMime := exportLookup_ne_folder _ em ext he
    simp only [syncRun, if_neg hm, he, hfe]

/-- C8 witness: a stale-looking pre-existing file (length 1, remote size 5)
forces a fetch; the fetch fails and the filesystem is returned unchanged —
and similarly for a failing export fetch. -/
theorem c8_witness :
    (DriveItem.mimeType ⟨"a", "text/plain", "f1", some 5⟩ ≠ folderMime) ∧
    exportLookup "text/plain" = none ∧
    envNoNet.fetchRaw "f1" = none ∧
    (∃ st2 tr, syncRun envNoNet (RT.node ⟨"a", "text/plain", "f1", some 5⟩ RT.nil)
        ["r"] [(["r", "a"], [9])] SyncStats.init =
        some ([(["r", "a"], [9])], st2, tr)) ∧
    syncRun envNoNet
      (RT.node ⟨"d", "application/vnd.google-apps.document", "f2", none⟩ RT.nil)
      ["r"] [(["r", "a"], [9])] SyncStats.init =
      some ([(["r", "a"], [9])], bumpFailed SyncStats.init,
        [Ev.fetchExport "f2"
          "application/vnd.openxmlformats-officedocument.wordprocessingml.document"]) := by
  refine ⟨by decide, by decide, by decide, ?_, ?_⟩
  · exact (c8_failed_fetch_preserves_fs envNoNet ["r"] [(["r", "a"], [9])]
      SyncStats.init ⟨"a", "text/plain", "f1", some 5⟩ RT.nil).1
      (by decide) (by decide) (by decide)
  · exact (c8_failed_fetch_preserves_fs envNoNet ["r"] [(["r", "a"], [9])]
      SyncStats.init ⟨"d", "application/vnd.google-apps.document", "f2", none⟩ RT.nil).2
      "application/vnd.openxmlformats-officedocument.wordprocessingml.document" ".docx"
      (by decide) (by decide)

/-- Each single counter bump raises `statSum` by exactly one and is
componentwise monotone. -/
theorem bump_stats (st st2 : SyncStats)
    (h : st2 = bumpDownloaded st ∨ st2 = bumpSkipped st ∨ st2 = bumpExported st ∨
         st2 = bumpFailed st ∨ st2 = bumpUnsupported st) :
    statSum st2 = statSum st + 1 ∧ stLE st st2 := by
  rcases h with h | h | h | h | h <;> subst h <;> refine ⟨?_, ?_⟩ <;>
    simp [statSum, stLE, bumpDownloaded, bumpSkipped, bumpExported, bumpFailed,
      bumpUnsupported] <;> omega

/-- Core stats invariant of the traversal: a run that returns normally
adds exactly `leafCount t` to the sum of the five counters, and never
decreases any counter. -/
theorem syncRun_stats (env : Env) :
    ∀ (t : RT) (dir : FsPath) (fs : FS) (st : SyncStats) (fs2 : FS)
      (st2 : SyncStats) (tr : List Ev),
      syncRun env t dir fs st = some (fs2, st2, tr) →
      statSum st2 = statSum st + leafCount t ∧ stLE st st2 := by
  intro t
  induction t with
  | nil =>
      intro dir fs st fs2 st2 tr h
      simp only [syncRun, Option.some.injEq, Prod.mk.injEq] at h
      obtain ⟨-, h2, -⟩ := h
      subst h2
      refine ⟨by simp [leafCount], ?_⟩
      simp [stLE]
  | cons hd tl ihhd ihtl =>
      intro dir fs st fs2 st2 tr h
      cases h1 : syncRun env hd dir fs st with
      | none =>
          simp only [syncRun, h1] at h
          exact Option.noConfusion h
      | some r =>
          rcases r with ⟨fsm, stm, trm⟩
          simp only [syncRun, h1] at h
          cases h2 : syncRun env tl dir fsm stm with
          | none =>
              rw [h2] at h
              cases h
          | some r2 =>
              rcases r2 with ⟨fsn, stn, trn⟩
              rw [h2] at h
              dsimp only at h
              simp only [Option.some.injEq, Prod.mk.injEq] at h
              obtain ⟨-, hst, -⟩ := h
              subst hst
              obtain ⟨s1, m1⟩ := ihhd dir fs st fsm stm trm h1
              obtain ⟨s2, m2⟩ := ihtl dir fsm stm fsn stn trn h2
              simp only [stLE] at m1 m2 ⊢
              simp only [leafCount]
              constructor
              · omega
              · omega
  | node item ch ih =>
      intro dir fs st fs2 st2 tr h
      by_cases hm : item.mimeType = folderMime
      · simp only [syncRun, if_pos hm] at h
        by_cases hmk : env.mkdirFails (dir ++ [_sanitize_filename item.name]) = true
        · rw [if_pos hmk] at h
          cases h
        · rw [if_neg hmk] at h
          obtain ⟨s1, m1⟩ :=
            ih (dir ++ [_sanitize_filename item.name]) fs st fs2 st2 tr h
          refine ⟨?_, m1⟩
          simp only [leafCount, if_pos hm]
          omega
      · have hleaf : leafCount (RT.node item ch) = 1 := by
          simp [leafCount, hm]
        rw [hleaf]
        simp only [syncRun, if_neg hm] at h
        cases hel : exportLookup item.mimeType with
        | none =>
            simp only [hel] at h
            cases hg : fsGet fs (dir ++ [_sanitize_filename item.name]) with
            | none =>
                simp only [hg] at h
                cases hr : env.fetchRaw item.id with
                | none =>
                    simp only [hr, Option.some.injEq, Prod.mk.injEq] at h
                    exact bump_stats st st2 (Or.inr (Or.inr (Or.inr (Or.inl
                      h.2.1.symm))))
                | some bytes =>
                    simp only [hr] at h
                    by_cases hw : env.writeFails
                        (dir ++ [_sanitize_filename item.name]) = true
                    · rw [if_pos hw] at h
                      simp only [Option.some.injEq, Prod.mk.injEq] at h
                      exact bump_stats st st2 (Or.inr (Or.inr (Or.inr (Or.inl
                        h.2.1.symm))))
                    · rw [if_neg hw] at h
                      simp only [Option.some.injEq, Prod.mk.injEq] at h
                      exact bump_stats st st2 (Or.inl h.2.1.symm)
            | some b =>
                simp only [hg] at h
                by_cases hcond : 0 ≤ (((item.size).getD (-1)) : Int) ∧
                    (b.length : Int) = (item.size).getD (-1)
                · rw [if_pos hcond] at h
                  simp only [Option.some.injEq, Prod.mk.injEq] at h
                  exact bump_stats st st2 (Or.inr (Or.inl h.2.1.symm))
                · rw [if_neg hcond] at h
                  cases hr : env.fetchRaw item.id with
                  | none =>
                      simp only [hr, Option.some.injEq, Prod.mk.injEq] at h
                      exact bump_stats st st2 (Or.inr (Or.inr (Or.inr (Or.inl
                        h.2.1.symm))))
                  | some bytes =>
                      simp only [hr] at h
                      by_cases hw : env.writeFails
                          (dir ++ [_sanitize_filename item.name]) = true
                      · rw [if_pos hw] at h
                        simp only [Option.some.injEq, Prod.mk.injEq] at h
                        exact bump_stats st st2 (Or.inr (Or.inr (Or.inr (Or.inl
                          h.2.1.symm))))
                      · rw [if_neg hw] at h
                        simp only [Option.some.injEq, Prod.mk.injEq] at h
                        exact bump_stats st st2 (Or.inl h.2.1.symm)
        | some o =>
            cases o with
            | none =>
                simp only [hel, Option.some.injEq, Prod.mk.injEq] at h
                exact bump_stats st st2 (Or.inr (Or.inr (Or.inr (Or.inr
                  h.2.1.symm))))
            | some pr =>
                rcases pr with ⟨em, ext⟩
                simp only [hel] at h
                cases hfe : env.fetchExport item.id em with
                | none =>
                    simp only [hfe, Option.some.injEq, Prod.mk.injEq] at h
                    exact bump_stats st st2 (Or.inr (Or.inr (Or.inr (Or.inl
                      h.2.1.symm))))
                | some bytes =>
                    simp only [hfe] at h
                    by_cases hw : env.writeFails
                        (dir ++ [_sanitize_filename item.name ++ ext]) = true
                    · rw [if_pos hw] at h
                      simp only [Option.some.injEq, Prod.mk.injEq] at h
                      exact bump_stats st st2 (Or.inr (Or.inr (Or.inr (Or.inl
                        h.2.1.symm))))
                    · rw [if_neg hw] at h
                      simp only [Option.some.injEq, Prod.mk.injEq] at h
                      exact bump_stats st st2 (Or.inr (Or.inr (Or.inl
                        h.2.1.symm)))

/-- C6: after a completed run, the five counters sum to exactly the number
of non-folder entries encountered across the whole recursive traversal
(each non-folder entry contributes exactly one increment of exactly one
counter, folders contribute none), and every counter is monotone over the
run. -/
theorem c6_stats_partition (env : Env) (t : RT) (root : FsPath) (fs fs2 : FS)
    (st st2 : SyncStats) (tr : List Ev)
    (h : sync_folder env root t fs st = some (fs2, st2, tr)) :
    statSum st2 = statSum st + leafCount t ∧ stLE st st2 := by
  unfold sync_folder at h
  by_cases hmk : env.mkdirFails root = true
  · rw [if_pos hmk] at h
    cases h
  · rw [if_neg hmk] at h
    exact syncRun_stats env t root fs st fs2 st2 tr h

/-- C6 witness: the two-leaf listing `c6Tree` (one downloaded file, one
unsupported form) gives counters summing to 2 = `leafCount c6Tree`. -/
theorem c6_witness :
    sync_folder envOk ["r"] c6Tree [] SyncStats.init =
      some ([(["r", "Reports", "a.txt"], [0])], ⟨1, 0, 0, 0, 1⟩,
        [Ev.fetchRaw "f"]) ∧
    (statSum ⟨1, 0, 0, 0, 1⟩ = statSum SyncStats.init + leafCount c6Tree ∧
     stLE SyncStats.init ⟨1, 0, 0, 0, 1⟩) :=
  ⟨by decide,
   c6_stats_partition envOk c6Tree ["r"] [] [(["r", "Reports", "a.txt"], [0])]
     SyncStats.init ⟨1, 0, 0, 0, 1⟩ [Ev.fetchRaw "f"] (by decide)⟩

/-- C9 (counterexample): two sibling regular files both named `a`, both of
reported size 1, fetching `[65]` and `[66]` respectively, into an empty
local directory.  The first is downloaded; the second then passes the
staleness test against the just-written bytes and is **skipped**
(`downloaded = skipped = 1`, only one fetch event), so the final content is
the **earlier** sibling's `[65]`, not the later sibling's `[66]` — refuting
last-writer-wins. -/
theorem c9_counterexample :
    syncRun c9Env c9Tree ["r"] [] SyncStats.init =
      some ([(["r", "a"], [65])], ⟨1, 1, 0, 0, 0⟩, [Ev.fetchRaw "i1"]) ∧
    fsGet [(["r", "a"], [65])] ["r", "a"] = some [65] ∧
    c9Env.fetchRaw "i2" = some [66] ∧
    some ([65] : Bytes) ≠ some ([66] : Bytes) := by
  decide

/-- C9 (amended): when two same-named non-folder siblings are processed in
listing order into an initially absent target, both are processed and each
bumps its own counter; the later sibling's bytes win **provided** its
staleness test fails against the bytes the earlier sibling just wrote
(e.g. its reported size differs from the earlier content's length — the
skipping of an equal-sized later duplicate is what `c9_counterexample`
exhibits). -/
theorem c9_duplicate_siblings (env : Env) (dir : FsPath) (fs : FS)
    (st : SyncStats) (i1 i2 : DriveItem) (ch1 ch2 : RT) (b1 b2 : Bytes)
    (hm1 : i1.mimeType ≠ folderMime) (he1 : exportLookup i1.mimeType = none)
    (hm2 : i2.mimeType ≠ folderMime) (he2 : exportLookup i2.mimeType = none)
    (hn : _sanitize_filename i2.name = _sanitize_filename i1.name)
    (habs : fsGet fs (dir ++ [_sanitize_filename i1.name]) = none)
    (hf1 : env.fetchRaw i1.id = some b1) (hf2 : env.fetchRaw i2.id = some b2)
    (hw : env.writeFails (dir ++ [_sanitize_filename i1.name]) = false)
    (hsz : i2.size ≠ some (b1.length : Int)) :
    syncRun env (RT.cons (RT.node i1 ch1) (RT.cons (RT.node i2 ch2) RT.nil))
        dir fs st =
      some (fsSet (fsSet fs (dir ++ [_sanitize_filename i1.name]) b1)
              (dir ++ [_sanitize_filename i1.name]) b2,
            bumpDownloaded (bumpDownloaded st),
            [Ev.fetchRaw i1.id, Ev.fetchRaw i2.id]) ∧
    fsGet (fsSet (fsSet fs (dir ++ [_sanitize_filename i1.name]) b1)
            (dir ++ [_sanitize_filename i1.name]) b2)
      (dir ++ [_sanitize_filename i1.name]) = some b2 := by
  have h1 : syncRun env (RT.node i1 ch1) dir fs st =
      some (fsSet fs (dir ++ [_sanitize_filename i1.name]) b1, bumpDownloaded st,
        [Ev.fetchRaw i1.id]) := by
    simp only [syncRun, if_neg hm1, he1, habs, hf1, hw, Bool.false_eq_true,
      if_false]
  have hskip : ¬(0 ≤ (((i2.size).getD (-1)) : Int) ∧
      ((b1.length : Int) = (i2.size).getD (-1))) := by
    intro hc
    exact hsz ((skip_test_iff i2.size b1).mp hc)
  have h2 : syncRun env (RT.node i2 ch2) dir
      (fsSet fs (dir ++ [_sanitize_filename i1.name]) b1) (bumpDownloaded st) =
      some (fsSet (fsSet fs (dir ++ [_sanitize_filename i1.name]) b1)
              (dir ++ [_sanitize_filename i1.name]) b2,
            bumpDownloaded (bumpDownloaded st), [Ev.fetchRaw i2.id]) := by
    simp only [syncRun, if_neg hm2, he2, hn, fsGet_fsSet]
    rw [if_neg hskip]
    simp only [hf2, hw, Bool.false_eq_true, if_false]
  refine ⟨?_, fsGet_fsSet _ _ _⟩
  generalize hg1 : RT.node i1 ch1 = n1 at h1 ⊢
  generalize hg2 : RT.node i2 ch2 = n2 at h2 ⊢
  simp only [syncRun, h1, h2]
  simp

/-- C9 witness: instantiation of `c9_duplicate_siblings` — the second
duplicate reports size 7 ≠ 1, so it is genuinely re-downloaded and its
bytes `[66]` are the final content, with `downloaded` bumped twice. -/
theorem c9_witness :
    (DriveItem.mimeType ⟨"a", "application/octet-stream", "i1", some 1⟩ ≠ folderMime) ∧
    exportLookup "application/octet-stream" = none ∧
    (DriveItem.mimeType ⟨"a", "application/octet-stream", "i2", some 7⟩ ≠ folderMime) ∧
    _sanitize_filename "a" = _sanitize_filename "a" ∧
    fsGet [] (["r"] ++ [_sanitize_filename "a"]) = none ∧
    c9Env.fetchRaw "i1" = some [65] ∧
    c9Env.fetchRaw "i2" = some [66] ∧
    c9Env.writeFails (["r"] ++ [_sanitize_filename "a"]) = false ∧
    (some 7 : Option Int) ≠ some (([65] : Bytes).length : Int) ∧
    (syncRun c9Env
        (RT.cons (RT.node ⟨"a", "application/octet-stream", "i1", some 1⟩ RT.nil)
          (RT.cons (RT.node ⟨"a", "application/octet-stream", "i2", some 7⟩ RT.nil)
            RT.nil)) ["r"] [] SyncStats.init =
      some (fsSet (fsSet [] (["r"] ++ [_sanitize_filename "a"]) [65])
              (["r"] ++ [_sanitize_filename "a"]) [66],
            bumpDownloaded (bumpDownloaded SyncStats.init),
            [Ev.fetchRaw "i1", Ev.fetchRaw "i2"]) ∧
     fsGet (fsSet (fsSet [] (["r"] ++ [_sanitize_filename "a"]) [65])
              (["r"] ++ [_sanitize_filename "a"]) [66])
        (["r"] ++ [_sanitize_filename "a"]) = some [66]) :=
  ⟨by decide, by decide, by decide, by decide, by decide, by decide, by decide,
   by decide, by decide,
   c9_duplicate_siblings c9Env ["r"] [] SyncStats.init
     ⟨"a", "application/octet-stream", "i1", some 1⟩
     ⟨"a", "application/octet-stream", "i2", some 7⟩ RT.nil RT.nil [65] [66]
     (by decide) (by decide) (by decide) (by decide) (by decide) (by decide)
     (by decide) (by decide) (by decide) (by decide)⟩

end GDriveSync
